import Mathlib

/-!
Verification development for `src/py/managers/MeanVecFieldCartesian.py`
(repository `Jwely/thesis-pivpr`).

The Python class `MeanVecFieldCartesian` aggregates an ensemble of
instantaneous velocity-field samples (numpy masked arrays) into mean
velocity fields, fluctuation statistics and Reynolds-stress correlations.
This file gives a shallow embedding of that class:

* a masked cell is `Option α` (`none` = masked, `some a` = valid value `a`);
* a per-cell sample stack (one slice of the 3-D ensemble arrays
  `u_set`, `v_set`, `w_set` along the sample axis) is a `List (Option α)`;
* numpy masked reductions (`np.ma.mean`, `.count`) and masked elementwise
  arithmetic are translated entry by entry;
* the instance state (attribute dictionary `vel_matrix`, `meshgrid`,
  `x_set`, `y_set`, `dims`, `constituent_vel_matrix_list`, `min_points`,
  `v3d_paths`) becomes a structure `MState`, and the methods
  `__getitem__`, `__setitem__`, `ingest_paths`, `_average_cartesian` and
  `__init__` become functions on it.  Python exceptions become explicit
  error values paired with the state the raising method left behind.

Floating point numbers are modelled by an arbitrary `LinearOrderedField`
(instantiated with `ℚ` in concrete computations); the square root used by
the `M` and `P` fields is an abstract parameter `sqrt : α → α`.
-/

set_option linter.unusedSectionVars false

namespace PivPr

variable {α : Type} [LinearOrderedField α]

/-! ### Masked-array primitives (numpy `np.ma` semantics, per cell) -/

/-- Elementwise binary operation on masked values: the result is masked
whenever either operand is masked (numpy masked arithmetic). -/
def mBin (f : α → α → α) : Option α → Option α → Option α
  | some a, some b => some (f a b)
  | _, _ => none

/-- Elementwise unary operation on masked values (e.g. `abs`, `** 2`,
`** 0.5`, `/ 2`): the mask is preserved. -/
def mMap (f : α → α) : Option α → Option α := Option.map f

/-- `np.ma.MaskedArray.count(axis=2)` at one cell: the number of valid
(unmasked) entries along the sample axis. -/
def validCount (l : List (Option α)) : Nat := (l.filterMap id).length

/-- `np.ma.mean(_, axis=2)` at one cell: masked when every entry is masked,
otherwise the arithmetic mean of the valid entries. -/
def maskedMean (l : List (Option α)) : Option α :=
  if validCount l = 0 then none
  else some ((l.filterMap id).sum / (validCount l : α))

/-- `np.ma.masked_array(data, mask=m)` at one cell: with numpy's default
`keep_mask=True` the new mask is OR-ed onto the mask `data` already has. -/
def applyMask (m : Bool) (x : Option α) : Option α := if m then none else x

/-- The value of the masked ensemble mean of a stack (the `some` payload of
`maskedMean` when at least one entry is valid). -/
def ensMean (us : List (Option α)) : α :=
  (us.filterMap id).sum / (validCount us : α)

/-! ### Per-cell statistics of `_average_cartesian`

Each definition below is one cell of the corresponding line of
`_average_cartesian`.  `us`, `vs`, `ws` are the per-cell stacks of the
`U`, `V`, `W` sample values (`u_set[i, j, :]` etc.). -/

/-- One cell of `mpm = u_set.count(axis=2) <= min_points`: the
minimum-points mask, computed from the `U` component's valid count. -/
def mpmCell (mp : Nat) (us : List (Option α)) : Bool :=
  decide (validCount us ≤ mp)

/-- One cell of `self['num'] = np.ma.masked_array(u_set.count(axis=2), mask=mpm)`
(the integer count is cast into the scalar field). -/
def numCell (mp : Nat) (us : List (Option α)) : Option α :=
  applyMask (mpmCell mp us) (some ((validCount us : Nat) : α))

/-- One cell of `self['U'] = np.ma.masked_array(np.ma.mean(u_set, axis=2), mask=mpm)`. -/
def UCell (mp : Nat) (us : List (Option α)) : Option α :=
  applyMask (mpmCell mp us) (maskedMean us)

/-- One cell of `self['V']`: the mean of the `V` stack, masked by the
minimum-points mask computed from the `U` stack. -/
def VCell (mp : Nat) (us vs : List (Option α)) : Option α :=
  applyMask (mpmCell mp us) (maskedMean vs)

/-- One cell of `self['W']`: the mean of the `W` stack, masked by the
minimum-points mask computed from the `U` stack. -/
def WCell (mp : Nat) (us ws : List (Option α)) : Option α :=
  applyMask (mpmCell mp us) (maskedMean ws)

/-- One cell of `self['M'] = (self['U']**2 + self['V']**2 + self['W']**2)**0.5`. -/
def MCell (sqrt : α → α) (mp : Nat) (us vs ws : List (Option α)) : Option α :=
  mMap sqrt (mBin (· + ·) (mBin (· + ·)
    (mMap (· ^ 2) (UCell mp us)) (mMap (· ^ 2) (VCell mp us vs)))
    (mMap (· ^ 2) (WCell mp us ws)))

/-- One cell of `self['P'] = (self['U']**2 + self['V']**2)**0.5`. -/
def PCell (sqrt : α → α) (mp : Nat) (us vs : List (Option α)) : Option α :=
  mMap sqrt (mBin (· + ·) (mMap (· ^ 2) (UCell mp us)) (mMap (· ^ 2) (VCell mp us vs)))

/-- One cell of the fluctuation stack
`x_set_p[:, :, i] = x_set[:, :, i] - self['X']`: every sample value minus
the (already masked) ensemble mean of that cell. -/
def fluct (xs : List (Option α)) (m : Option α) : List (Option α) :=
  xs.map (fun x => mBin (· - ·) x m)

/-- One cell of `self['u'] = np.ma.masked_array(np.ma.mean(abs(u_set_p), axis=2), mask=mpm)`. -/
def uCell (mp : Nat) (us : List (Option α)) : Option α :=
  applyMask (mpmCell mp us)
    (maskedMean ((fluct us (UCell mp us)).map (mMap abs)))

/-- One cell of `self['v']` (mean absolute `V` fluctuation, mask from `U` count). -/
def vCell (mp : Nat) (us vs : List (Option α)) : Option α :=
  applyMask (mpmCell mp us)
    (maskedMean ((fluct vs (VCell mp us vs)).map (mMap abs)))

/-- One cell of `self['w']` (mean absolute `W` fluctuation, mask from `U` count). -/
def wCell (mp : Nat) (us ws : List (Option α)) : Option α :=
  applyMask (mpmCell mp us)
    (maskedMean ((fluct ws (WCell mp us ws)).map (mMap abs)))

/-- One cell of `self['uu'] = np.ma.masked_array(np.ma.mean(u_set_p * u_set_p, axis=2), mask=mpm)`. -/
def uuCell (mp : Nat) (us : List (Option α)) : Option α :=
  applyMask (mpmCell mp us)
    (maskedMean ((fluct us (UCell mp us)).map (fun x => mBin (· * ·) x x)))

/-- One cell of `self['vv']`. -/
def vvCell (mp : Nat) (us vs : List (Option α)) : Option α :=
  applyMask (mpmCell mp us)
    (maskedMean ((fluct vs (VCell mp us vs)).map (fun x => mBin (· * ·) x x)))

/-- One cell of `self['ww']`. -/
def wwCell (mp : Nat) (us ws : List (Option α)) : Option α :=
  applyMask (mpmCell mp us)
    (maskedMean ((fluct ws (WCell mp us ws)).map (fun x => mBin (· * ·) x x)))

/-- One cell of `self['cte'] = (self['uu'] + self['vv'] + self['ww']) / 2`. -/
def cteCell (mp : Nat) (us vs ws : List (Option α)) : Option α :=
  mMap (· / 2) (mBin (· + ·) (mBin (· + ·) (uuCell mp us) (vvCell mp us vs))
    (wwCell mp us ws))

/-- One cell of `self['uv'] = np.ma.masked_array(np.ma.mean(u_set_p * v_set_p, axis=2), mask=mpm)`. -/
def uvCell (mp : Nat) (us vs : List (Option α)) : Option α :=
  applyMask (mpmCell mp us)
    (maskedMean (List.zipWith (mBin (· * ·))
      (fluct us (UCell mp us)) (fluct vs (VCell mp us vs))))

/-- One cell of `self['uw']`. -/
def uwCell (mp : Nat) (us ws : List (Option α)) : Option α :=
  applyMask (mpmCell mp us)
    (maskedMean (List.zipWith (mBin (· * ·))
      (fluct us (UCell mp us)) (fluct ws (WCell mp us ws))))

/-- One cell of `self['vw']`. -/
def vwCell (mp : Nat) (us vs ws : List (Option α)) : Option α :=
  applyMask (mpmCell mp us)
    (maskedMean (List.zipWith (mBin (· * ·))
      (fluct vs (VCell mp us vs)) (fluct ws (WCell mp us ws))))

/-- One cell of `self['uvw'] = np.ma.masked_array(np.ma.mean(u_set_p * v_set_p * w_set_p, axis=2), mask=mpm)`
(the product associates to the left, as in Python). -/
def uvwCell (mp : Nat) (us vs ws : List (Option α)) : Option α :=
  applyMask (mpmCell mp us)
    (maskedMean (List.zipWith (mBin (· * ·))
      (List.zipWith (mBin (· * ·))
        (fluct us (UCell mp us)) (fluct vs (VCell mp us vs)))
      (fluct ws (WCell mp us ws))))

/-! ### Instance state, sample records and the key-based accessor -/

/-- A 2-D masked matrix: grid cell `(i, j)` is masked (`none`) or holds a
value.  Dimensions are tracked separately in `MState.dims` / `VecField.dims`
(the statistics only ever act cellwise). -/
def GridF (α : Type) := Nat → Nat → Option α

/-- A 2-D unmasked coordinate mesh (one entry of the `meshgrid` dictionary). -/
def MeshF (α : Type) := Nat → Nat → α

/-- One constituent `vel_matrix` record: the `U`, `V`, `W` matrices of a
single sample, as retained in `constituent_vel_matrix_list`. -/
structure Sample (α : Type) where
  U : GridF α
  V : GridF α
  W : GridF α

/-- A Python value stored in (or read from) the `vel_matrix` / `meshgrid`
dictionaries: `None`, a masked matrix, or a coordinate mesh. -/
inductive PyObj (α : Type) where
  | pynone : PyObj α
  | pymatrix : GridF α → PyObj α
  | pymesh : MeshF α → PyObj α

/-- Modelled from the spec: the Sample Loader (class `VecFieldCartesian`,
whose source is not under `src/`) materializes one source into grid
dimensions `(rows, cols)`, coordinate axes for rows/columns, a coordinate
mesh pair, and three equal-shaped masked velocity matrices keyed
`U`, `V`, `W`. -/
structure VecField (α : Type) where
  x_set : List α
  y_set : List α
  dims : Nat × Nat
  x_mesh : MeshF α
  y_mesh : MeshF α
  vel_matrix : Sample α

/-- The keys of the `self.vel_matrix` dictionary, in the order the
`__init__` of `MeanVecFieldCartesian` declares them. -/
def velMatrixKeys : List String :=
  ["U", "V", "W", "P", "M", "u", "v", "w",
   "uu", "vv", "ww", "cte", "uv", "uw", "vw", "uvw", "num"]

/-- The keys of the `self.meshgrid` dictionary. -/
def meshKeys : List String := ["x_mesh", "y_mesh"]

/-- The state of one `MeanVecFieldCartesian` instance.  `vel` and
`meshgrid` are the value maps of the two dictionaries (meaningful on
`velMatrixKeys` / `meshKeys`); `v3d_paths` is the stored reference to the
caller-supplied path list, which `ingest_paths` mutates. -/
structure MState (α : Type) where
  x_set : Option (List α)
  y_set : Option (List α)
  dims : Option (Nat × Nat)
  meshgrid : String → PyObj α
  constituent : List (Sample α)
  vel : String → PyObj α
  min_points : Nat
  v3d_paths : Option (List (VecField α))

/-- Python `key[::-1]`: character-reversal of a string. -/
def strRev (s : String) : String := String.mk s.data.reverse

/-- `__getitem__`: a field key reads `vel_matrix`, a reversed field key
reads the field stored under its reversal, a meshgrid key reads `meshgrid`,
and any other key falls off the end of the method (Python returns `None`). -/
def getitem (st : MState α) (key : String) : PyObj α :=
  if key ∈ velMatrixKeys then st.vel key
  else if strRev key ∈ velMatrixKeys then st.vel (strRev key)
  else if key ∈ meshKeys then st.meshgrid key
  else .pynone

/-- The errors `MeanVecFieldCartesian` methods can raise.  `emptySourceList`
models the `IndexError` of `filepath_list.pop(0)` on an empty list,
`dimensionMismatch` the `AssertionError` "Inconsistent dimensions
detected!", and `invalidFieldKey` the `AttributeError` of `__setitem__`. -/
inductive PyErr where
  | emptySourceList : PyErr
  | dimensionMismatch : PyErr
  | invalidFieldKey : PyErr
deriving DecidableEq

/-- `__setitem__`: write under the key if it is a field key, under its
reversal if that is a field key, otherwise raise (`AttributeError`),
leaving the state untouched. -/
def setitem (st : MState α) (key : String) (v : PyObj α) :
    Except PyErr Unit × MState α :=
  if key ∈ velMatrixKeys then
    (.ok (), { st with vel := fun k => if k = key then v else st.vel k })
  else if strRev key ∈ velMatrixKeys then
    (.ok (), { st with vel := fun k => if k = strRev key then v else st.vel k })
  else (.error .invalidFieldKey, st)

/-! ### The aggregation pass `_average_cartesian` -/

/-- `u_set[i, j, :]`: the stack of one cell's `U` values across the
constituent samples (likewise `stackV`, `stackW`). -/
def stackU (cvm : List (Sample α)) (i j : Nat) : List (Option α) :=
  cvm.map (fun s => s.U i j)

/-- `v_set[i, j, :]`. -/
def stackV (cvm : List (Sample α)) (i j : Nat) : List (Option α) :=
  cvm.map (fun s => s.V i j)

/-- `w_set[i, j, :]`. -/
def stackW (cvm : List (Sample α)) (i j : Nat) : List (Option α) :=
  cvm.map (fun s => s.W i j)

/-- The per-cell value `_average_cartesian` stores under field key `k`,
as a function of the three per-cell sample stacks. -/
def fieldCell (sqrt : α → α) (mp : Nat) (k : String)
    (us vs ws : List (Option α)) : Option α :=
  if k = "U" then UCell mp us
  else if k = "V" then VCell mp us vs
  else if k = "W" then WCell mp us ws
  else if k = "P" then PCell sqrt mp us vs
  else if k = "M" then MCell sqrt mp us vs ws
  else if k = "u" then uCell mp us
  else if k = "v" then vCell mp us vs
  else if k = "w" then wCell mp us ws
  else if k = "uu" then uuCell mp us
  else if k = "vv" then vvCell mp us vs
  else if k = "ww" then wwCell mp us ws
  else if k = "cte" then cteCell mp us vs ws
  else if k = "uv" then uvCell mp us vs
  else if k = "uw" then uwCell mp us ws
  else if k = "vw" then vwCell mp us vs ws
  else if k = "uvw" then uvwCell mp us vs ws
  else if k = "num" then numCell mp us
  else none

/-- The full matrix `_average_cartesian` stores under field key `k`. -/
def fieldGrid (sqrt : α → α) (mp : Nat) (cvm : List (Sample α)) (k : String) :
    GridF α :=
  fun i j => fieldCell sqrt mp k (stackU cvm i j) (stackV cvm i j) (stackW cvm i j)

/-- `_average_cartesian(min_points)`: store `min_points`, stack the
constituent sample matrices, and overwrite every field key of `vel_matrix`
with the computed statistic (each store goes through `__setitem__` with a
key that is in the table, so it lands on that key directly). -/
def averageCartesian (sqrt : α → α) (st : MState α) (mp : Nat) : MState α :=
  { st with
    min_points := mp
    vel := fun k =>
      if k ∈ velMatrixKeys then .pymatrix (fieldGrid sqrt mp st.constituent k)
      else st.vel k }

/-! ### Ingestion (`ingest_paths` and `__init__`) -/

/-- The `for path in filepath_list` loop of `ingest_paths`: load each
remaining sample, assert its dims equal the reference dims, and append its
`vel_matrix` to `constituent_vel_matrix_list`.  On a mismatch the
`AssertionError` propagates and the state mutated so far is kept. -/
def ingestLoop (refDims : Nat × Nat) (st : MState α) :
    List (VecField α) → Except PyErr Unit × MState α
  | [] => (.ok (), st)
  | vf :: rest =>
    if vf.dims = refDims then
      ingestLoop refDims
        { st with constituent := st.constituent ++ [vf.vel_matrix] } rest
    else (.error .dimensionMismatch, st)

/-- `ingest_paths(filepath_list)`: pop the first source (an empty list
raises `IndexError` here, before anything is mutated), inherit its grid
information, append every sample's `vel_matrix`, and on success run
`_average_cartesian(self.min_points)`.  The third component is the
caller-supplied list as the method leaves it (the `pop(0)` mutates it). -/
def ingest_paths (sqrt : α → α) (st : MState α) :
    List (VecField α) → Except PyErr Unit × MState α × List (VecField α)
  | [] => (.error .emptySourceList, st, [])
  | first :: rest =>
    match ingestLoop first.dims
      { st with
        x_set := some first.x_set
        y_set := some first.y_set
        dims := some first.dims
        meshgrid := fun k =>
          if k = "x_mesh" then .pymesh first.x_mesh
          else if k = "y_mesh" then .pymesh first.y_mesh
          else .pynone
        constituent := st.constituent ++ [first.vel_matrix] } rest with
    | (.ok _, st2) => (.ok (), averageCartesian sqrt st2 st2.min_points, rest)
    | (.error e, st2) => (.error e, st2, rest)

/-- The attribute state `__init__` sets up before any ingestion: every
dictionary value `None`, no grid, the caller's path list stored. -/
def initState (min_points : Nat) (paths : Option (List (VecField α))) : MState α :=
  ⟨none, none, none, fun _ => .pynone, [], fun _ => .pynone, min_points, paths⟩

/-- `__init__(name_tag, v3d_paths, min_points, velocity_fs)`: initialize the
attributes and, when a path list is given, run `ingest_paths` on it.  The
stored `v3d_paths` is the caller's list, so after ingestion it reflects the
`pop(0)` mutation.  (The unused bookkeeping attributes `name_tag` and
`velocity_fs` are omitted.) -/
def mkInstance (sqrt : α → α) :
    Option (List (VecField α)) → Nat → Except PyErr Unit × MState α
  | none, min_points => (.ok (), initState min_points none)
  | some l, min_points =>
    match ingest_paths sqrt (initState min_points (some l)) l with
    | (r, st, l2) => (r, { st with v3d_paths := some l2 })

/-! ### Auxiliary predicates and concrete data for witnesses -/

/-- Two masked values are masked together (used to relate the validity of
different velocity components of the same sample). -/
def noneIff (x : Option α) (y : Option α) : Prop := x = none ↔ y = none

/-- Every constituent sample marks its `U`, `V` and `W` matrices invalid at
exactly the same cells (the situation the spec assumes "in practice"). -/
def SharedValidity (cvm : List (Sample α)) : Prop :=
  ∀ s ∈ cvm, ∀ i j : Nat, noneIff (s.U i j) (s.V i j) ∧ noneIff (s.U i j) (s.W i j)

/-- A sample whose three matrices are constant. -/
def constSample (u v w : Option ℚ) : Sample ℚ :=
  ⟨fun _ _ => u, fun _ _ => v, fun _ _ => w⟩

/-- A loader record with given dims carrying a given sample. -/
def constVecField (d : Nat × Nat) (s : Sample ℚ) : VecField ℚ :=
  ⟨[1], [2], d, fun _ _ => 0, fun _ _ => 0, s⟩

/-! ### Lemmas on the masked primitives -/

theorem mBin_eq_none {f : α → α → α} {x y : Option α} :
    mBin f x y = none ↔ x = none ∨ y = none := by
  cases x <;> cases y <;> simp [mBin]

theorem mMap_eq_none {f : α → α} {x : Option α} :
    mMap f x = none ↔ x = none := by
  cases x <;> simp [mMap]

theorem applyMask_eq_none {m : Bool} {x : Option α} :
    applyMask m x = none ↔ m = true ∨ x = none := by
  cases m <;> simp [applyMask]

theorem validCount_cons_none {l : List (Option α)} :
    validCount (none :: l) = validCount l := by
  simp [validCount, List.filterMap_cons]

theorem validCount_cons_some {a : α} {l : List (Option α)} :
    validCount (some a :: l) = validCount l + 1 := by
  simp [validCount, List.filterMap_cons]

theorem maskedMean_eq_none {l : List (Option α)} :
    maskedMean l = none ↔ validCount l = 0 := by
  unfold maskedMean
  split <;> simp_all

theorem maskedMean_of_ne {l : List (Option α)} (h : validCount l ≠ 0) :
    maskedMean l = some ((l.filterMap id).sum / (validCount l : α)) := by
  simp [maskedMean, h]

theorem filterMap_id_map_mMap {f : α → α} {l : List (Option α)} :
    (l.map (mMap f)).filterMap id = (l.filterMap id).map f := by
  induction l with
  | nil => rfl
  | cons x t ih =>
    simp only [mMap] at ih
    cases x <;> simp [List.filterMap_cons, mMap, ih, -List.filterMap_map]

theorem validCount_map_mMap {f : α → α} {l : List (Option α)} :
    validCount (l.map (mMap f)) = validCount l := by
  unfold validCount
  rw [filterMap_id_map_mMap, List.length_map]

theorem fluct_some {xs : List (Option α)} {m : α} :
    fluct xs (some m) = xs.map (mMap (fun a => a - m)) := by
  unfold fluct
  refine List.map_congr_left (fun x _ => ?_)
  cases x <;> rfl

theorem mBin_mMap_self {f : α → α → α} {g : α → α} {x : Option α} :
    mBin f (mMap g x) (mMap g x) = mMap (fun a => f (g a) (g a)) x := by
  cases x <;> rfl

/-! ### Lemmas transporting validity between components -/

theorem noneIff_symm {x y : Option α} (h : noneIff x y) : noneIff y x := h.symm

theorem noneIff_trans {x y z : Option α} (h1 : noneIff x y) (h2 : noneIff y z) :
    noneIff x z := h1.trans h2

theorem forall2_noneIff_symm {l1 l2 : List (Option α)}
    (h : List.Forall₂ noneIff l1 l2) : List.Forall₂ noneIff l2 l1 := by
  induction h with
  | nil => exact .nil
  | cons hx _ ih => exact .cons hx.symm ih

theorem forall2_noneIff_trans {l1 l2 l3 : List (Option α)}
    (h1 : List.Forall₂ noneIff l1 l2) (h2 : List.Forall₂ noneIff l2 l3) :
    List.Forall₂ noneIff l1 l3 := by
  induction h1 generalizing l3 with
  | nil => cases h2; exact .nil
  | cons hx _ ih =>
    cases h2 with
    | cons hy h2t => exact .cons (hx.trans hy) (ih h2t)

theorem forall2_validCount_eq {l1 l2 : List (Option α)}
    (h : List.Forall₂ noneIff l1 l2) : validCount l1 = validCount l2 := by
  induction h with
  | nil => rfl
  | cons hx _ ih =>
    rename_i x y _ _ _
    cases x with
    | none =>
      have hy : y = none := hx.mp rfl
      subst hy
      simpa [validCount_cons_none] using ih
    | some a =>
      cases y with
      | none => exact absurd (hx.mpr rfl) (by simp)
      | some b => simpa [validCount_cons_some] using ih

theorem forall2_map_mMap {f g : α → α} {l1 l2 : List (Option α)}
    (h : List.Forall₂ noneIff l1 l2) :
    List.Forall₂ noneIff (l1.map (mMap f)) (l2.map (mMap g)) := by
  induction h with
  | nil => exact .nil
  | cons hx _ ih =>
    refine .cons ?_ ih
    simp only [noneIff, mMap_eq_none]
    exact hx

theorem forall2_zip_noneIff_left {f : α → α → α} {l1 l2 : List (Option α)}
    (h : List.Forall₂ noneIff l1 l2) :
    List.Forall₂ noneIff (List.zipWith (mBin f) l1 l2) l1 := by
  induction h with
  | nil => exact .nil
  | cons hx _ ih =>
    refine .cons ?_ ih
    simp only [noneIff, mBin_eq_none]
    constructor
    · rintro (hu | hv)
      · exact hu
      · exact hx.mpr hv
    · intro hu
      exact Or.inl hu

theorem forall2_zip_validCount {f : α → α → α} {l1 l2 : List (Option α)}
    (h : List.Forall₂ noneIff l1 l2) :
    validCount (List.zipWith (mBin f) l1 l2) = validCount l1 :=
  forall2_validCount_eq (forall2_zip_noneIff_left h)

theorem forall2_map_same {β : Type} {R : Option α → Option α → Prop} {l : List β}
    {f g : β → Option α} (h : ∀ x ∈ l, R (f x) (g x)) :
    List.Forall₂ R (l.map f) (l.map g) := by
  induction l with
  | nil => exact .nil
  | cons a t ih => exact .cons (h a (by simp)) (ih (fun x hx => h x (by simp [hx])))

theorem fluct_forall2 {us vs : List (Option α)} {μ ν : α}
    (h : List.Forall₂ noneIff us vs) :
    List.Forall₂ noneIff (fluct us (some μ)) (fluct vs (some ν)) := by
  rw [fluct_some, fluct_some]
  exact forall2_map_mMap h

theorem validCount_fluct {us : List (Option α)} {μ : α} :
    validCount (fluct us (some μ)) = validCount us := by
  rw [fluct_some, validCount_map_mMap]

theorem validCount_fluct_map {g : α → α} {us : List (Option α)} {μ : α} :
    validCount ((fluct us (some μ)).map (mMap g)) = validCount us := by
  rw [fluct_some, validCount_map_mMap, validCount_map_mMap]

theorem map_mBin_self_fluct {f : α → α → α} {us : List (Option α)} {μ : α} :
    (fluct us (some μ)).map (fun x => mBin f x x)
      = us.map (mMap (fun a => f (a - μ) (a - μ))) := by
  rw [fluct_some, List.map_map]
  exact List.map_congr_left (fun x _ => mBin_mMap_self)

/-! ### Per-field mask characterizations -/

theorem applyMask_mpm_none_iff {mp : Nat} {us : List (Option α)} {x : Option α}
    (hx : ¬ validCount us ≤ mp → x ≠ none) :
    applyMask (mpmCell mp us) x = none ↔ validCount us ≤ mp := by
  by_cases h : validCount us ≤ mp
  · simp [applyMask, mpmCell, h]
  · simp [applyMask, mpmCell, h, hx h]

theorem UCell_of_lt {mp : Nat} {us : List (Option α)}
    (h : ¬ validCount us ≤ mp) : UCell mp us = some (ensMean us) := by
  have h0 : validCount us ≠ 0 := by omega
  simp [UCell, applyMask, mpmCell, h, maskedMean_of_ne h0, ensMean]

theorem VCell_of_lt {mp : Nat} {us vs : List (Option α)}
    (h : ¬ validCount us ≤ mp) (hv0 : validCount vs ≠ 0) :
    VCell mp us vs = some (ensMean vs) := by
  simp [VCell, applyMask, mpmCell, h, maskedMean_of_ne hv0, ensMean]

theorem WCell_of_lt {mp : Nat} {us ws : List (Option α)}
    (h : ¬ validCount us ≤ mp) (hw0 : validCount ws ≠ 0) :
    WCell mp us ws = some (ensMean ws) := by
  simp [WCell, applyMask, mpmCell, h, maskedMean_of_ne hw0, ensMean]

theorem numCell_none_iff {mp : Nat} {us : List (Option α)} :
    numCell mp us = none ↔ validCount us ≤ mp := by
  simp [numCell, applyMask_eq_none, mpmCell]

theorem UCell_none_iff {mp : Nat} {us : List (Option α)} :
    UCell mp us = none ↔ validCount us ≤ mp :=
  applyMask_mpm_none_iff (fun h => by
    rw [maskedMean_of_ne (by omega)]
    simp)

theorem VCell_none_iff {mp : Nat} {us vs : List (Option α)}
    (hv : validCount vs = validCount us) :
    VCell mp us vs = none ↔ validCount us ≤ mp :=
  applyMask_mpm_none_iff (fun h => by
    rw [maskedMean_of_ne (by omega)]
    simp)

theorem WCell_none_iff {mp : Nat} {us ws : List (Option α)}
    (hw : validCount ws = validCount us) :
    WCell mp us ws = none ↔ validCount us ≤ mp :=
  applyMask_mpm_none_iff (fun h => by
    rw [maskedMean_of_ne (by omega)]
    simp)

theorem PCell_none_iff {sqrt : α → α} {mp : Nat} {us vs : List (Option α)}
    (hv : validCount vs = validCount us) :
    PCell sqrt mp us vs = none ↔ validCount us ≤ mp := by
  simp only [PCell, mMap_eq_none, mBin_eq_none, UCell_none_iff, VCell_none_iff hv]
  tauto

theorem MCell_none_iff {sqrt : α → α} {mp : Nat} {us vs ws : List (Option α)}
    (hv : validCount vs = validCount us) (hw : validCount ws = validCount us) :
    MCell sqrt mp us vs ws = none ↔ validCount us ≤ mp := by
  simp only [MCell, mMap_eq_none, mBin_eq_none, UCell_none_iff, VCell_none_iff hv,
    WCell_none_iff hw]
  tauto

theorem uCell_none_iff {mp : Nat} {us : List (Option α)} :
    uCell mp us = none ↔ validCount us ≤ mp := by
  unfold uCell
  refine applyMask_mpm_none_iff (fun h => ?_)
  rw [UCell_of_lt h, maskedMean_of_ne]
  · simp
  · rw [validCount_fluct_map]
    omega

theorem vCell_none_iff {mp : Nat} {us vs : List (Option α)}
    (hv : validCount vs = validCount us) :
    vCell mp us vs = none ↔ validCount us ≤ mp := by
  unfold vCell
  refine applyMask_mpm_none_iff (fun h => ?_)
  rw [VCell_of_lt h (by omega), maskedMean_of_ne]
  · simp
  · rw [validCount_fluct_map]
    omega

theorem wCell_none_iff {mp : Nat} {us ws : List (Option α)}
    (hw : validCount ws = validCount us) :
    wCell mp us ws = none ↔ validCount us ≤ mp := by
  unfold wCell
  refine applyMask_mpm_none_iff (fun h => ?_)
  rw [WCell_of_lt h (by omega), maskedMean_of_ne]
  · simp
  · rw [validCount_fluct_map]
    omega

theorem uuCell_none_iff {mp : Nat} {us : List (Option α)} :
    uuCell mp us = none ↔ validCount us ≤ mp := by
  unfold uuCell
  refine applyMask_mpm_none_iff (fun h => ?_)
  rw [UCell_of_lt h, map_mBin_self_fluct, maskedMean_of_ne]
  · simp
  · rw [validCount_map_mMap]
    omega

theorem vvCell_none_iff {mp : Nat} {us vs : List (Option α)}
    (hv : validCount vs = validCount us) :
    vvCell mp us vs = none ↔ validCount us ≤ mp := by
  unfold vvCell
  refine applyMask_mpm_none_iff (fun h => ?_)
  rw [VCell_of_lt h (by omega), map_mBin_self_fluct, maskedMean_of_ne]
  · simp
  · rw [validCount_map_mMap]
    omega

theorem wwCell_none_iff {mp : Nat} {us ws : List (Option α)}
    (hw : validCount ws = validCount us) :
    wwCell mp us ws = none ↔ validCount us ≤ mp := by
  unfold wwCell
  refine applyMask_mpm_none_iff (fun h => ?_)
  rw [WCell_of_lt h (by omega), map_mBin_self_fluct, maskedMean_of_ne]
  · simp
  · rw [validCount_map_mMap]
    omega

theorem cteCell_none_iff {mp : Nat} {us vs ws : List (Option α)}
    (hv : validCount vs = validCount us) (hw : validCount ws = validCount us) :
    cteCell mp us vs ws = none ↔ validCount us ≤ mp := by
  simp only [cteCell, mMap_eq_none, mBin_eq_none, uuCell_none_iff,
    vvCell_none_iff hv, wwCell_none_iff hw]
  tauto

theorem uvCell_none_iff {mp : Nat} {us vs : List (Option α)}
    (huv : List.Forall₂ noneIff us vs) :
    uvCell mp us vs = none ↔ validCount us ≤ mp := by
  unfold uvCell
  refine applyMask_mpm_none_iff (fun h => ?_)
  have hv : validCount us = validCount vs := forall2_validCount_eq huv
  rw [UCell_of_lt h, VCell_of_lt h (by omega), maskedMean_of_ne]
  · simp
  · rw [forall2_zip_validCount (fluct_forall2 huv), validCount_fluct]
    omega

theorem uwCell_none_iff {mp : Nat} {us ws : List (Option α)}
    (huw : List.Forall₂ noneIff us ws) :
    uwCell mp us ws = none ↔ validCount us ≤ mp := by
  unfold uwCell
  refine applyMask_mpm_none_iff (fun h => ?_)
  have hw : validCount us = validCount ws := forall2_validCount_eq huw
  rw [UCell_of_lt h, WCell_of_lt h (by omega), maskedMean_of_ne]
  · simp
  · rw [forall2_zip_validCount (fluct_forall2 huw), validCount_fluct]
    omega

theorem vwCell_none_iff {mp : Nat} {us vs ws : List (Option α)}
    (huv : List.Forall₂ noneIff us vs) (huw : List.Forall₂ noneIff us ws) :
    vwCell mp us vs ws = none ↔ validCount us ≤ mp := by
  unfold vwCell
  refine applyMask_mpm_none_iff (fun h => ?_)
  have hv : validCount us = validCount vs := forall2_validCount_eq huv
  have hw : validCount us = validCount ws := forall2_validCount_eq huw
  have hvw : List.Forall₂ noneIff vs ws :=
    forall2_noneIff_trans (forall2_noneIff_symm huv) huw
  rw [VCell_of_lt h (by omega), WCell_of_lt h (by omega), maskedMean_of_ne]
  · simp
  · rw [forall2_zip_validCount (fluct_forall2 hvw), validCount_fluct]
    omega

theorem uvwCell_none_iff {mp : Nat} {us vs ws : List (Option α)}
    (huv : List.Forall₂ noneIff us vs) (huw : List.Forall₂ noneIff us ws) :
    uvwCell mp us vs ws = none ↔ validCount us ≤ mp := by
  unfold uvwCell
  refine applyMask_mpm_none_iff (fun h => ?_)
  have hv : validCount us = validCount vs := forall2_validCount_eq huv
  have hw : validCount us = validCount ws := forall2_validCount_eq huw
  rw [UCell_of_lt h, VCell_of_lt h (by omega), WCell_of_lt h (by omega),
    maskedMean_of_ne]
  · simp
  · have h1 : List.Forall₂ (noneIff : Option α → Option α → Prop)
        (List.zipWith (mBin (· * ·)) (fluct us (some (ensMean us)))
          (fluct vs (some (ensMean vs)))) (fluct us (some (ensMean us))) :=
      forall2_zip_noneIff_left (fluct_forall2 huv)
    have h2 : List.Forall₂ (noneIff : Option α → Option α → Prop)
        (List.zipWith (mBin (· * ·)) (fluct us (some (ensMean us)))
          (fluct vs (some (ensMean vs)))) (fluct ws (some (ensMean ws))) :=
      forall2_noneIff_trans h1
        (fluct_forall2 (forall2_noneIff_trans (forall2_noneIff_symm
          (List.forall₂_same.mpr (fun x _ => Iff.rfl))) huw))
    rw [forall2_zip_validCount h2, forall2_zip_validCount (fluct_forall2 huv),
      validCount_fluct]
    omega

/-- When the three components of every sample are valid at the same cells,
every field of the derived set is masked exactly where the `U` valid count
fails the threshold. -/
theorem fieldCell_none_iff {sqrt : α → α} {mp : Nat} {k : String}
    {us vs ws : List (Option α)}
    (huv : List.Forall₂ noneIff us vs) (huw : List.Forall₂ noneIff us ws)
    (hk : k ∈ velMatrixKeys) :
    fieldCell sqrt mp k us vs ws = none ↔ validCount us ≤ mp := by
  have hv : validCount vs = validCount us := (forall2_validCount_eq huv).symm
  have hw : validCount ws = validCount us := (forall2_validCount_eq huw).symm
  simp only [velMatrixKeys, List.mem_cons, List.not_mem_nil, or_false] at hk
  rcases hk with rfl | rfl | rfl | rfl | rfl | rfl | rfl | rfl | rfl | rfl | rfl |
    rfl | rfl | rfl | rfl | rfl | rfl
  exacts [UCell_none_iff, VCell_none_iff hv, WCell_none_iff hw, PCell_none_iff hv,
    MCell_none_iff hv hw, uCell_none_iff, vCell_none_iff hv, wCell_none_iff hw,
    uuCell_none_iff, vvCell_none_iff hv, wwCell_none_iff hw, cteCell_none_iff hv hw,
    uvCell_none_iff huv, uwCell_none_iff huw, vwCell_none_iff huv huw,
    uvwCell_none_iff huv huw, numCell_none_iff]

/-- Claim C1, as stated, is false on the code: the minimum-points mask is
computed from the `U` component only, so when a sample's `V` matrix is
masked at a cell where its `U` matrix is valid, the `V` field can be
masked at a cell whose `U` valid count exceeds `minPoints`.  Concretely:
one sample with `U = some 1`, `V = none`, `minPoints = 0` gives a `V`
field that is masked although the count `1` is not `≤ 0`. -/
theorem C1_mask_iff_fails_without_shared_validity :
    fieldGrid (id : ℚ → ℚ) 0 [constSample (some 1) none (some 1)] "V" 0 0 = none ∧
    ¬ validCount (stackU [constSample (some 1) none (some 1)] 0 0) ≤ 0 := by
  constructor
  · simp [fieldGrid, fieldCell, stackU, stackV, stackW, constSample, VCell,
      applyMask, mpmCell, maskedMean, validCount, List.filterMap_cons]
  · simp [stackU, constSample, validCount, List.filterMap_cons]

/-- Whatever the validity of the `V` and `W` components, every derived
field of the table is masked at a cell whose `U` valid count is at most
the threshold: each cell function either applies the minimum-points mask
directly or is built from cells that do. -/
theorem fieldCell_none_of_le {sqrt : α → α} {mp : Nat} {k : String}
    {us vs ws : List (Option α)} (hk : k ∈ velMatrixKeys)
    (h : validCount us ≤ mp) :
    fieldCell sqrt mp k us vs ws = none := by
  have hm : mpmCell mp us = true := by simp [mpmCell, h]
  have hU : UCell mp us = none := by simp [UCell, applyMask, hm]
  have huu : uuCell mp us = none := by simp [uuCell, applyMask, hm]
  simp only [velMatrixKeys, List.mem_cons, List.not_mem_nil, or_false] at hk
  rcases hk with rfl | rfl | rfl | rfl | rfl | rfl | rfl | rfl | rfl | rfl | rfl |
    rfl | rfl | rfl | rfl | rfl | rfl
  · exact hU
  · simp [fieldCell, VCell, applyMask, hm]
  · simp [fieldCell, WCell, applyMask, hm]
  · simp [fieldCell, PCell, mMap_eq_none, mBin_eq_none, hU]
  · simp [fieldCell, MCell, mMap_eq_none, mBin_eq_none, hU]
  · simp [fieldCell, uCell, applyMask, hm]
  · simp [fieldCell, vCell, applyMask, hm]
  · simp [fieldCell, wCell, applyMask, hm]
  · exact huu
  · simp [fieldCell, vvCell, applyMask, hm]
  · simp [fieldCell, wwCell, applyMask, hm]
  · simp [fieldCell, cteCell, mMap_eq_none, mBin_eq_none, huu]
  · simp [fieldCell, uvCell, applyMask, hm]
  · simp [fieldCell, uwCell, applyMask, hm]
  · simp [fieldCell, vwCell, applyMask, hm]
  · simp [fieldCell, uvwCell, applyMask, hm]
  · simp [fieldCell, numCell, applyMask, hm]

/-- Claim C1 (amended): for every aggregation run, `num` equals the
`U`-component valid count with the mask `count <= minPoints` applied
(strict: a cell with exactly `minPoints` valid samples is masked), and
every derived field is masked wherever `count <= minPoints`; when,
additionally, all samples mark `U`, `V`, `W` invalid at the same cells, a
cell is masked in every derived field if and only if `count <= minPoints`. -/
theorem C1_num_and_mask {sqrt : α → α} {mp : Nat} {cvm : List (Sample α)}
    {k : String} (hk : k ∈ velMatrixKeys) (i j : Nat) :
    (validCount (stackU cvm i j) ≤ mp → fieldGrid sqrt mp cvm "num" i j = none) ∧
    (¬ validCount (stackU cvm i j) ≤ mp →
      fieldGrid sqrt mp cvm "num" i j = some ((validCount (stackU cvm i j) : Nat) : α)) ∧
    (validCount (stackU cvm i j) ≤ mp → fieldGrid sqrt mp cvm k i j = none) ∧
    (validCount (stackU cvm i j) = mp → fieldGrid sqrt mp cvm k i j = none) ∧
    (SharedValidity cvm →
      (fieldGrid sqrt mp cvm k i j = none ↔ validCount (stackU cvm i j) ≤ mp)) := by
  refine ⟨?_, ?_, ?_, ?_, ?_⟩
  · intro h
    simp [fieldGrid, fieldCell, numCell, applyMask, mpmCell, h]
  · intro h
    simp [fieldGrid, fieldCell, numCell, applyMask, mpmCell, h]
  · intro h
    exact fieldCell_none_of_le hk h
  · intro h
    exact fieldCell_none_of_le hk (le_of_eq h)
  · intro hs
    have huv : List.Forall₂ noneIff (stackU cvm i j) (stackV cvm i j) :=
      forall2_map_same (fun s hs2 => (hs s hs2 i j).1)
    have huw : List.Forall₂ noneIff (stackU cvm i j) (stackW cvm i j) :=
      forall2_map_same (fun s hs2 => (hs s hs2 i j).2)
    exact fieldCell_none_iff huv huw hk

/-- Witness for C1 (amended), at one sample, key "V", cell (0,0),
threshold 0: the unmasked `num` value and, under shared validity, the
mask iff. -/
theorem C1_num_and_mask_witness :
    fieldGrid (id : ℚ → ℚ) 0 [constSample (some 1) (some 2) (some 3)] "num" 0 0
      = some ((validCount (stackU [constSample (some 1) (some 2) (some 3)] 0 0) : Nat) : ℚ) ∧
    (fieldGrid (id : ℚ → ℚ) 0 [constSample (some 1) (some 2) (some 3)] "V" 0 0 = none
      ↔ validCount (stackU [constSample (some 1) (some 2) (some 3)] 0 0) ≤ 0) := by
  have hs : SharedValidity [constSample (some 1) (some 2) (some 3)] := by
    intro s hs2 i j
    simp only [List.mem_singleton] at hs2
    subst hs2
    exact ⟨by simp [constSample, noneIff], by simp [constSample, noneIff]⟩
  have happ := @C1_num_and_mask ℚ _ id 0 [constSample (some 1) (some 2) (some 3)]
    "V" (by decide) 0 0
  exact ⟨happ.2.1 (by decide), happ.2.2.2.2 hs⟩

/-! ### C2: the second moments are population (biased) variances -/

theorem uuCell_of_lt {mp : Nat} {us : List (Option α)}
    (h : ¬ validCount us ≤ mp) :
    uuCell mp us = some (((us.filterMap id).map
      (fun a => (a - ensMean us) * (a - ensMean us))).sum / (validCount us : α)) := by
  unfold uuCell
  rw [UCell_of_lt h, map_mBin_self_fluct,
    maskedMean_of_ne (by rw [validCount_map_mMap]; omega),
    filterMap_id_map_mMap, validCount_map_mMap]
  simp [applyMask, mpmCell, h]

theorem vvCell_of_lt {mp : Nat} {us vs : List (Option α)}
    (h : ¬ validCount us ≤ mp) (hv0 : validCount vs ≠ 0) :
    vvCell mp us vs = some (((vs.filterMap id).map
      (fun a => (a - ensMean vs) * (a - ensMean vs))).sum / (validCount vs : α)) := by
  unfold vvCell
  rw [VCell_of_lt h hv0, map_mBin_self_fluct,
    maskedMean_of_ne (by rw [validCount_map_mMap]; omega),
    filterMap_id_map_mMap, validCount_map_mMap]
  simp [applyMask, mpmCell, h]

theorem wwCell_of_lt {mp : Nat} {us ws : List (Option α)}
    (h : ¬ validCount us ≤ mp) (hw0 : validCount ws ≠ 0) :
    wwCell mp us ws = some (((ws.filterMap id).map
      (fun a => (a - ensMean ws) * (a - ensMean ws))).sum / (validCount ws : α)) := by
  unfold wwCell
  rw [WCell_of_lt h hw0, map_mBin_self_fluct,
    maskedMean_of_ne (by rw [validCount_map_mMap]; omega),
    filterMap_id_map_mMap, validCount_map_mMap]
  simp [applyMask, mpmCell, h]

/-- Claim C2: at every cell with more than `minPoints` valid samples, the
`uu`, `vv`, `ww` fields are the mean of the squared fluctuation of each
valid sample about that component's masked ensemble mean, with divisor the
valid-sample count itself (a population estimator, not count minus one). -/
theorem C2_second_moments {mp : Nat} {us vs ws : List (Option α)}
    (h : ¬ validCount us ≤ mp) (hv0 : validCount vs ≠ 0) (hw0 : validCount ws ≠ 0) :
    uuCell mp us = some (((us.filterMap id).map
      (fun a => (a - ensMean us) * (a - ensMean us))).sum / (validCount us : α)) ∧
    vvCell mp us vs = some (((vs.filterMap id).map
      (fun a => (a - ensMean vs) * (a - ensMean vs))).sum / (validCount vs : α)) ∧
    wwCell mp us ws = some (((ws.filterMap id).map
      (fun a => (a - ensMean ws) * (a - ensMean ws))).sum / (validCount ws : α)) :=
  ⟨uuCell_of_lt h, vvCell_of_lt h hv0, wwCell_of_lt h hw0⟩

/-- Witness for C2, on the spec's concrete scenario: `U` values
`[1, 3, 5]`, `minPoints = 2`, giving `num = 3`, `U = 3`, `u = 4/3`,
`uu = 8/3` with the cell unmasked. -/
theorem C2_second_moments_witness :
    ¬ validCount ([some 1, some 3, some 5] : List (Option ℚ)) ≤ 2 ∧
    uuCell 2 ([some 1, some 3, some 5] : List (Option ℚ)) = some (8 / 3) ∧
    numCell 2 ([some 1, some 3, some 5] : List (Option ℚ)) = some 3 ∧
    UCell 2 ([some 1, some 3, some 5] : List (Option ℚ)) = some 3 ∧
    uCell 2 ([some 1, some 3, some 5] : List (Option ℚ)) = some (4 / 3) ∧
    mpmCell 2 ([some 1, some 3, some 5] : List (Option ℚ)) = false := by
  refine ⟨by decide, ?_, ?_, ?_, ?_, by decide⟩
  · rw [(@C2_second_moments ℚ _ 2 [some 1, some 3, some 5] [some 1] [some 1]
      (by decide) (by decide) (by decide)).1]
    norm_num [ensMean, validCount, List.filterMap_cons]
  · simp [numCell, applyMask, mpmCell, validCount, List.filterMap_cons]
  · simp [UCell, applyMask, mpmCell, maskedMean, validCount, List.filterMap_cons]
    norm_num
  · simp [uCell, UCell, applyMask, mpmCell, maskedMean, validCount,
      List.filterMap_cons, fluct, mBin, mMap]
    norm_num

/-! ### C3: M and P are derived purely from the masked means -/

/-- Claim C3: at every cell, `M` is `sqrt (U^2 + V^2 + W^2)` and `P` is
`sqrt (U^2 + V^2)` of the already-computed masked mean fields, and `M`
(resp. `P`) is masked exactly where one of the means it is built from is
masked. -/
theorem C3_magnitudes {sqrt : α → α} (mp : Nat) (us vs ws : List (Option α)) :
    (MCell sqrt mp us vs ws =
      match UCell mp us, VCell mp us vs, WCell mp us ws with
      | some a, some b, some c => some (sqrt (a ^ 2 + b ^ 2 + c ^ 2))
      | _, _, _ => none) ∧
    (PCell sqrt mp us vs =
      match UCell mp us, VCell mp us vs with
      | some a, some b => some (sqrt (a ^ 2 + b ^ 2))
      | _, _ => none) ∧
    (MCell sqrt mp us vs ws = none ↔
      UCell mp us = none ∨ VCell mp us vs = none ∨ WCell mp us ws = none) ∧
    (PCell sqrt mp us vs = none ↔ UCell mp us = none ∨ VCell mp us vs = none) := by
  cases hU : UCell mp us <;> cases hV : VCell mp us vs <;>
    cases hW : WCell mp us ws <;>
      simp [MCell, PCell, mMap, mBin, hU, hV, hW]

/-! ### C5, C6, C9: the key-based accessor -/

theorem strRev_uu : strRev "uu" = "uu" := by decide

theorem strRev_vv : strRev "vv" = "vv" := by decide

theorem strRev_ww : strRev "ww" = "ww" := by decide

theorem strRev_cte : strRev "cte" = "etc" := by decide

theorem strRev_etc : strRev "etc" = "cte" := by decide

theorem strRev_uv : strRev "uv" = "vu" := by decide

theorem strRev_vu : strRev "vu" = "uv" := by decide

theorem strRev_uw : strRev "uw" = "wu" := by decide

theorem strRev_wu : strRev "wu" = "uw" := by decide

theorem strRev_vw : strRev "vw" = "wv" := by decide

theorem strRev_wv : strRev "wv" = "vw" := by decide

theorem strRev_uvw : strRev "uvw" = "wvu" := by decide

theorem strRev_wvu : strRev "wvu" = "uvw" := by decide

theorem strRev_num : strRev "num" = "mun" := by decide

theorem strRev_mun : strRev "mun" = "num" := by decide

/-- Claim C5: for every two- or three-letter key of the field table,
reading the character-reversed key resolves to the same stored field as
reading the key itself, and writing through the reversed key updates the
field stored under the original key. -/
theorem C5_reversed_key_alias {st : MState α} {k : String} (v : PyObj α)
    (hk : k ∈ velMatrixKeys) (hlen : k.length = 2 ∨ k.length = 3) :
    getitem st (strRev k) = getitem st k ∧
    (setitem st (strRev k) v).1 = .ok () ∧
    (setitem st (strRev k) v).2.vel k = v := by
  simp only [velMatrixKeys, List.mem_cons, List.not_mem_nil, or_false] at hk
  rcases hk with rfl | rfl | rfl | rfl | rfl | rfl | rfl | rfl | rfl | rfl | rfl |
    rfl | rfl | rfl | rfl | rfl | rfl
  · exact absurd hlen (by decide)
  · exact absurd hlen (by decide)
  · exact absurd hlen (by decide)
  · exact absurd hlen (by decide)
  · exact absurd hlen (by decide)
  · exact absurd hlen (by decide)
  · exact absurd hlen (by decide)
  · exact absurd hlen (by decide)
  · refine ⟨?_, ?_, ?_⟩ <;> simp [getitem, setitem, strRev_uu, velMatrixKeys, meshKeys]
  · refine ⟨?_, ?_, ?_⟩ <;> simp [getitem, setitem, strRev_vv, velMatrixKeys, meshKeys]
  · refine ⟨?_, ?_, ?_⟩ <;> simp [getitem, setitem, strRev_ww, velMatrixKeys, meshKeys]
  · refine ⟨?_, ?_, ?_⟩ <;>
      simp [getitem, setitem, strRev_cte, strRev_etc, velMatrixKeys, meshKeys]
  · refine ⟨?_, ?_, ?_⟩ <;>
      simp [getitem, setitem, strRev_uv, strRev_vu, velMatrixKeys, meshKeys]
  · refine ⟨?_, ?_, ?_⟩ <;>
      simp [getitem, setitem, strRev_uw, strRev_wu, velMatrixKeys, meshKeys]
  · refine ⟨?_, ?_, ?_⟩ <;>
      simp [getitem, setitem, strRev_vw, strRev_wv, velMatrixKeys, meshKeys]
  · refine ⟨?_, ?_, ?_⟩ <;>
      simp [getitem, setitem, strRev_uvw, strRev_wvu, velMatrixKeys, meshKeys]
  · refine ⟨?_, ?_, ?_⟩ <;>
      simp [getitem, setitem, strRev_num, strRev_mun, velMatrixKeys, meshKeys]

/-- Witness for C5 at key "uv" on a freshly constructed instance. -/
theorem C5_reversed_key_alias_witness :
    getitem (⟨none, none, none, fun _ => PyObj.pynone, [], fun _ => PyObj.pynone,
        20, none⟩ : MState ℚ) (strRev "uv")
      = getitem (⟨none, none, none, fun _ => PyObj.pynone, [], fun _ => PyObj.pynone,
        20, none⟩ : MState ℚ) "uv" ∧
    (setitem (⟨none, none, none, fun _ => PyObj.pynone, [], fun _ => PyObj.pynone,
        20, none⟩ : MState ℚ) (strRev "uv") (PyObj.pymatrix (fun _ _ => some 7))).1
      = .ok () ∧
    (setitem (⟨none, none, none, fun _ => PyObj.pynone, [], fun _ => PyObj.pynone,
        20, none⟩ : MState ℚ) (strRev "uv") (PyObj.pymatrix (fun _ _ => some 7))).2.vel "uv"
      = PyObj.pymatrix (fun _ _ => some 7) :=
  C5_reversed_key_alias (PyObj.pymatrix (fun _ _ => some 7)) (by decide) (by decide)

/-- Claim C6: writing through the accessor with a key that is a field key
in neither orientation raises `AttributeError` (`InvalidFieldKey`) and
leaves the whole state, in particular every stored field, unchanged. -/
theorem C6_invalid_key_write {st : MState α} {k : String} (v : PyObj α)
    (h1 : k ∉ velMatrixKeys) (h2 : strRev k ∉ velMatrixKeys) :
    setitem st k v = (.error .invalidFieldKey, st) := by
  simp [setitem, h1, h2]

/-- Witness for C6 at key "zz". -/
theorem C6_invalid_key_write_witness :
    setitem (⟨none, none, none, fun _ => PyObj.pynone, [], fun _ => PyObj.pynone,
        20, none⟩ : MState ℚ) "zz" PyObj.pynone
      = (.error .invalidFieldKey,
        (⟨none, none, none, fun _ => PyObj.pynone, [], fun _ => PyObj.pynone,
          20, none⟩ : MState ℚ)) :=
  C6_invalid_key_write PyObj.pynone (by decide) (by decide)

/-- Claim C9, as stated, is false on the code: `__getitem__` only consults
the `vel_matrix` keys (directly or reversed) and the `meshgrid` keys, so
the coordinate axes are not readable through the accessor.  After a
successful ingestion establishes `x_set`, reading key "x_set" still falls
off the end of the method and yields no value. -/
theorem C9_axis_keys_not_exposed :
    (mkInstance (id : ℚ → ℚ)
        (some [constVecField (1, 1) (constSample (some 1) (some 1) (some 1))]) 0).2.x_set
      = some [1] ∧
    getitem (mkInstance (id : ℚ → ℚ)
        (some [constVecField (1, 1) (constSample (some 1) (some 1) (some 1))]) 0).2 "x_set"
      = PyObj.pynone := by
  exact ⟨rfl, rfl⟩

/-- Claim C9 (amended): reading a coordinate-mesh key ("x_mesh"/"y_mesh")
returns the entry of the `meshgrid` dictionary; the coordinate axes are
plain attributes, not exposed through the accessor ("x_set"/"y_set" read
as no value); and any key that is neither a field key, a reversed field
key, nor a mesh key reads as no value. -/
theorem C9_accessor_reads {st : MState α} {k : String}
    (h1 : k ∉ velMatrixKeys) (h2 : strRev k ∉ velMatrixKeys) :
    getitem st k = (if k ∈ meshKeys then st.meshgrid k else .pynone) ∧
    getitem st "x_mesh" = st.meshgrid "x_mesh" ∧
    getitem st "y_mesh" = st.meshgrid "y_mesh" ∧
    getitem st "x_set" = PyObj.pynone ∧
    getitem st "y_set" = PyObj.pynone := by
  refine ⟨by simp [getitem, h1, h2], ?_, ?_, ?_, ?_⟩
  · simp [getitem, velMatrixKeys, meshKeys,
      show strRev "x_mesh" = "hsem_x" from by decide]
  · simp [getitem, velMatrixKeys, meshKeys,
      show strRev "y_mesh" = "hsem_y" from by decide]
  · simp [getitem, velMatrixKeys, meshKeys,
      show strRev "x_set" = "tes_x" from by decide]
  · simp [getitem, velMatrixKeys, meshKeys,
      show strRev "y_set" = "tes_y" from by decide]

/-- Witness for C9 (amended) at key "foo" on a freshly constructed
instance. -/
theorem C9_accessor_reads_witness :
    getitem (⟨none, none, none, fun _ => PyObj.pynone, [], fun _ => PyObj.pynone,
        20, none⟩ : MState ℚ) "foo"
      = (if "foo" ∈ meshKeys then
          (⟨none, none, none, fun _ => PyObj.pynone, [], fun _ => PyObj.pynone,
            20, none⟩ : MState ℚ).meshgrid "foo"
        else .pynone) ∧
    getitem (⟨none, none, none, fun _ => PyObj.pynone, [], fun _ => PyObj.pynone,
        20, none⟩ : MState ℚ) "x_mesh"
      = (⟨none, none, none, fun _ => PyObj.pynone, [], fun _ => PyObj.pynone,
          20, none⟩ : MState ℚ).meshgrid "x_mesh" ∧
    getitem (⟨none, none, none, fun _ => PyObj.pynone, [], fun _ => PyObj.pynone,
        20, none⟩ : MState ℚ) "y_mesh"
      = (⟨none, none, none, fun _ => PyObj.pynone, [], fun _ => PyObj.pynone,
          20, none⟩ : MState ℚ).meshgrid "y_mesh" ∧
    getitem (⟨none, none, none, fun _ => PyObj.pynone, [], fun _ => PyObj.pynone,
        20, none⟩ : MState ℚ) "x_set" = PyObj.pynone ∧
    getitem (⟨none, none, none, fun _ => PyObj.pynone, [], fun _ => PyObj.pynone,
        20, none⟩ : MState ℚ) "y_set" = PyObj.pynone :=
  C9_accessor_reads (by decide) (by decide)

/-! ### C8: the statistics do not depend on sample order -/

theorem perm_validCount {l1 l2 : List (Option α)} (h : l1.Perm l2) :
    validCount l1 = validCount l2 := (h.filterMap id).length_eq

theorem maskedMean_perm {l1 l2 : List (Option α)} (h : l1.Perm l2) :
    maskedMean l1 = maskedMean l2 := by
  unfold maskedMean
  rw [perm_validCount h, (h.filterMap id).sum_eq]

theorem mpmCell_perm {mp : Nat} {l1 l2 : List (Option α)} (h : l1.Perm l2) :
    mpmCell mp l1 = mpmCell mp l2 := by
  simp [mpmCell, perm_validCount h]

theorem numCell_perm {mp : Nat} {l1 l2 : List (Option α)} (h : l1.Perm l2) :
    numCell mp l1 = numCell mp l2 := by
  simp [numCell, mpmCell_perm h, perm_validCount h]

theorem UCell_perm {mp : Nat} {l1 l2 : List (Option α)} (h : l1.Perm l2) :
    UCell mp l1 = UCell mp l2 := by
  simp [UCell, mpmCell_perm h, maskedMean_perm h]

theorem VCell_perm {mp : Nat} {us1 us2 vs1 vs2 : List (Option α)}
    (hu : us1.Perm us2) (hv : vs1.Perm vs2) :
    VCell mp us1 vs1 = VCell mp us2 vs2 := by
  simp [VCell, mpmCell_perm hu, maskedMean_perm hv]

theorem WCell_perm {mp : Nat} {us1 us2 ws1 ws2 : List (Option α)}
    (hu : us1.Perm us2) (hw : ws1.Perm ws2) :
    WCell mp us1 ws1 = WCell mp us2 ws2 := by
  simp [WCell, mpmCell_perm hu, maskedMean_perm hw]

theorem PCell_perm {sqrt : α → α} {mp : Nat} {us1 us2 vs1 vs2 : List (Option α)}
    (hu : us1.Perm us2) (hv : vs1.Perm vs2) :
    PCell sqrt mp us1 vs1 = PCell sqrt mp us2 vs2 := by
  simp [PCell, UCell_perm hu, VCell_perm hu hv]

theorem MCell_perm {sqrt : α → α} {mp : Nat} {us1 us2 vs1 vs2 ws1 ws2 : List (Option α)}
    (hu : us1.Perm us2) (hv : vs1.Perm vs2) (hw : ws1.Perm ws2) :
    MCell sqrt mp us1 vs1 ws1 = MCell sqrt mp us2 vs2 ws2 := by
  simp [MCell, UCell_perm hu, VCell_perm hu hv, WCell_perm hu hw]

theorem uCell_perm {mp : Nat} {l1 l2 : List (Option α)} (h : l1.Perm l2) :
    uCell mp l1 = uCell mp l2 := by
  unfold uCell
  rw [mpmCell_perm h, UCell_perm h]
  congr 1
  exact maskedMean_perm ((h.map _).map _)

theorem vCell_perm {mp : Nat} {us1 us2 vs1 vs2 : List (Option α)}
    (hu : us1.Perm us2) (hv : vs1.Perm vs2) :
    vCell mp us1 vs1 = vCell mp us2 vs2 := by
  unfold vCell
  rw [mpmCell_perm hu, VCell_perm hu hv]
  congr 1
  exact maskedMean_perm ((hv.map _).map _)

theorem wCell_perm {mp : Nat} {us1 us2 ws1 ws2 : List (Option α)}
    (hu : us1.Perm us2) (hw : ws1.Perm ws2) :
    wCell mp us1 ws1 = wCell mp us2 ws2 := by
  unfold wCell
  rw [mpmCell_perm hu, WCell_perm hu hw]
  congr 1
  exact maskedMean_perm ((hw.map _).map _)

theorem uuCell_perm {mp : Nat} {l1 l2 : List (Option α)} (h : l1.Perm l2) :
    uuCell mp l1 = uuCell mp l2 := by
  unfold uuCell
  rw [mpmCell_perm h, UCell_perm h]
  congr 1
  exact maskedMean_perm ((h.map _).map _)

theorem vvCell_perm {mp : Nat} {us1 us2 vs1 vs2 : List (Option α)}
    (hu : us1.Perm us2) (hv : vs1.Perm vs2) :
    vvCell mp us1 vs1 = vvCell mp us2 vs2 := by
  unfold vvCell
  rw [mpmCell_perm hu, VCell_perm hu hv]
  congr 1
  exact maskedMean_perm ((hv.map _).map _)

theorem wwCell_perm {mp : Nat} {us1 us2 ws1 ws2 : List (Option α)}
    (hu : us1.Perm us2) (hw : ws1.Perm ws2) :
    wwCell mp us1 ws1 = wwCell mp us2 ws2 := by
  unfold wwCell
  rw [mpmCell_perm hu, WCell_perm hu hw]
  congr 1
  exact maskedMean_perm ((hw.map _).map _)

theorem cteCell_perm {mp : Nat} {us1 us2 vs1 vs2 ws1 ws2 : List (Option α)}
    (hu : us1.Perm us2) (hv : vs1.Perm vs2) (hw : ws1.Perm ws2) :
    cteCell mp us1 vs1 ws1 = cteCell mp us2 vs2 ws2 := by
  simp [cteCell, uuCell_perm hu, vvCell_perm hu hv, wwCell_perm hu hw]

theorem zipWith_map_same {β : Type} {f : Option α → Option α → Option α}
    {g h : β → Option α} {l : List β} :
    List.zipWith f (l.map g) (l.map h) = l.map (fun x => f (g x) (h x)) := by
  induction l with
  | nil => rfl
  | cons a t ih => simp [ih]

theorem fluct_map {β : Type} {l : List β} {f : β → Option α} {m : Option α} :
    fluct (l.map f) m = l.map (fun x => mBin (· - ·) (f x) m) := by
  unfold fluct
  rw [List.map_map]
  rfl

theorem uvCell_stack_perm {mp : Nat} {cvm1 cvm2 : List (Sample α)} {i j : Nat}
    (h : cvm1.Perm cvm2) :
    uvCell mp (stackU cvm1 i j) (stackV cvm1 i j)
      = uvCell mp (stackU cvm2 i j) (stackV cvm2 i j) := by
  have hU : (stackU cvm1 i j).Perm (stackU cvm2 i j) := h.map _
  have hV : (stackV cvm1 i j).Perm (stackV cvm2 i j) := h.map _
  unfold uvCell
  rw [mpmCell_perm hU, UCell_perm hU, VCell_perm hU hV]
  congr 1
  apply maskedMean_perm
  unfold stackU stackV
  rw [fluct_map, fluct_map, fluct_map, fluct_map, zipWith_map_same, zipWith_map_same]
  exact h.map _

theorem uwCell_stack_perm {mp : Nat} {cvm1 cvm2 : List (Sample α)} {i j : Nat}
    (h : cvm1.Perm cvm2) :
    uwCell mp (stackU cvm1 i j) (stackW cvm1 i j)
      = uwCell mp (stackU cvm2 i j) (stackW cvm2 i j) := by
  have hU : (stackU cvm1 i j).Perm (stackU cvm2 i j) := h.map _
  have hW : (stackW cvm1 i j).Perm (stackW cvm2 i j) := h.map _
  unfold uwCell
  rw [mpmCell_perm hU, UCell_perm hU, WCell_perm hU hW]
  congr 1
  apply maskedMean_perm
  unfold stackU stackW
  rw [fluct_map, fluct_map, fluct_map, fluct_map, zipWith_map_same, zipWith_map_same]
  exact h.map _

theorem vwCell_stack_perm {mp : Nat} {cvm1 cvm2 : List (Sample α)} {i j : Nat}
    (h : cvm1.Perm cvm2) :
    vwCell mp (stackU cvm1 i j) (stackV cvm1 i j) (stackW cvm1 i j)
      = vwCell mp (stackU cvm2 i j) (stackV cvm2 i j) (stackW cvm2 i j) := by
  have hU : (stackU cvm1 i j).Perm (stackU cvm2 i j) := h.map _
  have hV : (stackV cvm1 i j).Perm (stackV cvm2 i j) := h.map _
  have hW : (stackW cvm1 i j).Perm (stackW cvm2 i j) := h.map _
  unfold vwCell
  rw [mpmCell_perm hU, VCell_perm hU hV, WCell_perm hU hW]
  congr 1
  apply maskedMean_perm
  unfold stackV stackW
  rw [fluct_map, fluct_map, fluct_map, fluct_map, zipWith_map_same, zipWith_map_same]
  exact h.map _

theorem uvwCell_stack_perm {mp : Nat} {cvm1 cvm2 : List (Sample α)} {i j : Nat}
    (h : cvm1.Perm cvm2) :
    uvwCell mp (stackU cvm1 i j) (stackV cvm1 i j) (stackW cvm1 i j)
      = uvwCell mp (stackU cvm2 i j) (stackV cvm2 i j) (stackW cvm2 i j) := by
  have hU : (stackU cvm1 i j).Perm (stackU cvm2 i j) := h.map _
  have hV : (stackV cvm1 i j).Perm (stackV cvm2 i j) := h.map _
  have hW : (stackW cvm1 i j).Perm (stackW cvm2 i j) := h.map _
  unfold uvwCell
  rw [mpmCell_perm hU, UCell_perm hU, VCell_perm hU hV, WCell_perm hU hW]
  congr 1
  apply maskedMean_perm
  unfold stackU stackV stackW
  rw [fluct_map, fluct_map, fluct_map, fluct_map, fluct_map, fluct_map,
    zipWith_map_same, zipWith_map_same, zipWith_map_same, zipWith_map_same]
  exact h.map _

set_option maxHeartbeats 1000000 in
/-- Claim C8: aggregating any permutation of the same constituent sample
list yields the same derived field matrix (values and masks) for every
key. -/
theorem C8_order_independent {sqrt : α → α} {mp : Nat}
    {cvm1 cvm2 : List (Sample α)} (h : cvm1.Perm cvm2) (k : String) :
    fieldGrid sqrt mp cvm1 k = fieldGrid sqrt mp cvm2 k := by
  funext i j
  have hU : (stackU cvm1 i j).Perm (stackU cvm2 i j) := h.map _
  have hV : (stackV cvm1 i j).Perm (stackV cvm2 i j) := h.map _
  have hW : (stackW cvm1 i j).Perm (stackW cvm2 i j) := h.map _
  by_cases hk : k ∈ velMatrixKeys
  · simp only [velMatrixKeys, List.mem_cons, List.not_mem_nil, or_false] at hk
    rcases hk with rfl | rfl | rfl | rfl | rfl | rfl | rfl | rfl | rfl | rfl | rfl |
      rfl | rfl | rfl | rfl | rfl | rfl
    exacts [UCell_perm hU, VCell_perm hU hV, WCell_perm hU hW, PCell_perm hU hV,
      MCell_perm hU hV hW, uCell_perm hU, vCell_perm hU hV, wCell_perm hU hW,
      uuCell_perm hU, vvCell_perm hU hV, wwCell_perm hU hW, cteCell_perm hU hV hW,
      uvCell_stack_perm h, uwCell_stack_perm h, vwCell_stack_perm h,
      uvwCell_stack_perm h, numCell_perm hU]
  · simp only [velMatrixKeys, List.mem_cons, List.not_mem_nil, or_false,
      not_or] at hk
    obtain ⟨n1, n2, n3, n4, n5, n6, n7, n8, n9, n10, n11, n12, n13, n14, n15,
      n16, n17⟩ := hk
    simp [fieldGrid, fieldCell, n1, n2, n3, n4, n5, n6, n7, n8, n9, n10, n11,
      n12, n13, n14, n15, n16, n17]

/-- Witness for C8: swapping two concrete samples leaves the `uv` field
unchanged. -/
theorem C8_order_independent_witness :
    fieldGrid (id : ℚ → ℚ) 0
      [constSample (some 1) (some 2) (some 3), constSample (some 4) none (some 6)] "uv"
    = fieldGrid (id : ℚ → ℚ) 0
      [constSample (some 4) none (some 6), constSample (some 1) (some 2) (some 3)] "uv" :=
  C8_order_independent
    (List.Perm.swap (constSample (some 4) none (some 6))
      (constSample (some 1) (some 2) (some 3)) []) "uv"

/-! ### C4, C7, C10: ingestion -/

theorem ingestLoop_ok {d : Nat × Nat} {st : MState α} {l : List (VecField α)}
    (h : ∀ s ∈ l, s.dims = d) :
    ingestLoop d st l
      = (.ok (), { st with
          constituent := st.constituent ++ l.map (fun s => s.vel_matrix) }) := by
  induction l generalizing st with
  | nil => simp [ingestLoop]
  | cons a t ih =>
    have ha : a.dims = d := h a (by simp)
    simp only [ingestLoop, if_pos ha]
    rw [ih (fun s hs => h s (by simp [hs]))]
    simp

theorem ingestLoop_mismatch {d : Nat × Nat} {st : MState α} {l : List (VecField α)}
    (h : ∃ s ∈ l, s.dims ≠ d) :
    ingestLoop d st l
      = (.error .dimensionMismatch, { st with
          constituent := st.constituent ++
            (l.takeWhile (fun s => decide (s.dims = d))).map
              (fun s => s.vel_matrix) }) := by
  induction l generalizing st with
  | nil => simp at h
  | cons a t ih =>
    by_cases ha : a.dims = d
    · have ht : ∃ s ∈ t, s.dims ≠ d := by
        rcases h with ⟨s, hs, hne⟩
        rcases List.mem_cons.mp hs with rfl | hs2
        · exact absurd ha hne
        · exact ⟨s, hs2, hne⟩
      simp only [ingestLoop, if_pos ha]
      rw [ih ht]
      simp [List.takeWhile_cons, ha]
    · simp only [ingestLoop, if_neg ha]
      simp [List.takeWhile_cons, ha]

theorem ingest_paths_tail {sqrt : α → α} {st : MState α} {first : VecField α}
    {rest : List (VecField α)} :
    (ingest_paths sqrt st (first :: rest)).2.2 = rest := by
  simp only [ingest_paths]
  split <;> rfl

/-- Claim C4, as stated, is false on the code: after a dimension mismatch
the instance keeps the partially built ensemble.  Concretely: ingesting
two samples whose dims are `(1,1)` and `(2,2)` raises the mismatch, yet
the first sample's matrices remain in `constituent_vel_matrix_list` and
the reference grid of the first sample remains set. -/
theorem C4_partial_ensemble_retained :
    (ingest_paths (id : ℚ → ℚ)
        (⟨none, none, none, fun _ => PyObj.pynone, [], fun _ => PyObj.pynone, 20, none⟩ :
          MState ℚ)
        [constVecField (1, 1) (constSample (some 1) (some 1) (some 1)),
         constVecField (2, 2) (constSample (some 2) (some 2) (some 2))]).1
      = .error .dimensionMismatch ∧
    (ingest_paths (id : ℚ → ℚ)
        (⟨none, none, none, fun _ => PyObj.pynone, [], fun _ => PyObj.pynone, 20, none⟩ :
          MState ℚ)
        [constVecField (1, 1) (constSample (some 1) (some 1) (some 1)),
         constVecField (2, 2) (constSample (some 2) (some 2) (some 2))]).2.1.constituent.length
      = 1 ∧
    (ingest_paths (id : ℚ → ℚ)
        (⟨none, none, none, fun _ => PyObj.pynone, [], fun _ => PyObj.pynone, 20, none⟩ :
          MState ℚ)
        [constVecField (1, 1) (constSample (some 1) (some 1) (some 1)),
         constVecField (2, 2) (constSample (some 2) (some 2) (some 2))]).2.1.dims
      = some (1, 1) :=
  ⟨rfl, rfl, rfl⟩

/-- Claim C4 (amended): when a later sample's dims differ from the
reference established by the first sample, `ingest_paths` raises
`DimensionMismatch` before any statistics are computed (the field table
and threshold are untouched) and the ingestion aborts; the grid reference
and the sample records loaded before the mismatch — including the first —
remain retained on the instance. -/
theorem C4_dimension_mismatch {sqrt : α → α} {st : MState α}
    {first : VecField α} {rest : List (VecField α)}
    (h : ∃ s ∈ rest, s.dims ≠ first.dims) :
    (ingest_paths sqrt st (first :: rest)).1 = .error .dimensionMismatch ∧
    (ingest_paths sqrt st (first :: rest)).2.1.vel = st.vel ∧
    (ingest_paths sqrt st (first :: rest)).2.1.min_points = st.min_points ∧
    (ingest_paths sqrt st (first :: rest)).2.1.constituent
      = st.constituent ++ first.vel_matrix ::
          (rest.takeWhile (fun s => decide (s.dims = first.dims))).map
            (fun s => s.vel_matrix) ∧
    (ingest_paths sqrt st (first :: rest)).2.1.dims = some first.dims ∧
    (ingest_paths sqrt st (first :: rest)).2.2 = rest := by
  simp only [ingest_paths]
  rw [ingestLoop_mismatch h]
  simp

/-- Witness for C4 (amended) on the two concrete mismatching samples. -/
theorem C4_dimension_mismatch_witness :
    (ingest_paths (id : ℚ → ℚ)
        (⟨none, none, none, fun _ => PyObj.pynone, [], fun _ => PyObj.pynone, 20, none⟩ :
          MState ℚ)
        [constVecField (1, 1) (constSample (some 1) (some 1) (some 1)),
         constVecField (2, 2) (constSample (some 2) (some 2) (some 2))]).1
      = .error .dimensionMismatch ∧
    (ingest_paths (id : ℚ → ℚ)
        (⟨none, none, none, fun _ => PyObj.pynone, [], fun _ => PyObj.pynone, 20, none⟩ :
          MState ℚ)
        [constVecField (1, 1) (constSample (some 1) (some 1) (some 1)),
         constVecField (2, 2) (constSample (some 2) (some 2) (some 2))]).2.2
      = [constVecField (2, 2) (constSample (some 2) (some 2) (some 2))] :=
  ⟨(C4_dimension_mismatch
      ⟨constVecField (2, 2) (constSample (some 2) (some 2) (some 2)),
        List.mem_singleton.mpr rfl, by decide⟩).1,
   (C4_dimension_mismatch
      ⟨constVecField (2, 2) (constSample (some 2) (some 2) (some 2)),
        List.mem_singleton.mpr rfl, by decide⟩).2.2.2.2.2⟩

/-- Claim C7: invoking ingestion with an empty source list fails
immediately (the `pop(0)` raises before anything is touched), and no
partial result is produced: for any state the ingestion returns it
unchanged, and an instance constructed from an empty path list has no grid
dimensions, no axes, no constituent samples, and a field table that is
still all `None`. -/
theorem C7_empty_source_list (sqrt : α → α) (mp : Nat) :
    (∀ st : MState α, ingest_paths sqrt st [] = (.error .emptySourceList, st, [])) ∧
    (mkInstance sqrt (some []) mp).1 = .error .emptySourceList ∧
    (mkInstance sqrt (some []) mp).2.dims = none ∧
    (mkInstance sqrt (some []) mp).2.x_set = none ∧
    (mkInstance sqrt (some []) mp).2.y_set = none ∧
    (mkInstance sqrt (some []) mp).2.constituent = ([] : List (Sample α)) ∧
    (mkInstance sqrt (some []) mp).2.vel = (fun _ => PyObj.pynone) :=
  ⟨fun _ => rfl, rfl, rfl, rfl, rfl, rfl, rfl⟩

/-- Claim C10: `ingest_paths` mutates the caller-supplied list by removing
its first element (so the stored `v3d_paths`, which aliases the list
passed at construction, no longer contains the first path), while the
retained constituent list still includes the first sample's matrices. -/
theorem C10_pop_mutates_caller {sqrt : α → α} {mp : Nat}
    {first : VecField α} {rest : List (VecField α)}
    (hd : ∀ s ∈ rest, s.dims = first.dims) :
    (∀ st : MState α, (ingest_paths sqrt st (first :: rest)).2.2 = rest) ∧
    (mkInstance sqrt (some (first :: rest)) mp).1 = .ok () ∧
    (mkInstance sqrt (some (first :: rest)) mp).2.v3d_paths = some rest ∧
    (mkInstance sqrt (some (first :: rest)) mp).2.constituent
      = (first :: rest).map (fun s => s.vel_matrix) := by
  refine ⟨fun st => ingest_paths_tail, ?_⟩
  simp only [mkInstance, ingest_paths]
  rw [ingestLoop_ok hd]
  simp [averageCartesian, initState]

/-- Witness for C10: a single-path list; after construction the stored
path list is empty while the constituent list holds the sample. -/
theorem C10_pop_mutates_caller_witness :
    (∀ st : MState ℚ,
      (ingest_paths (id : ℚ → ℚ) st
        [constVecField (1, 1) (constSample (some 1) (some 1) (some 1))]).2.2 = []) ∧
    (mkInstance (id : ℚ → ℚ)
        (some [constVecField (1, 1) (constSample (some 1) (some 1) (some 1))]) 20).1
      = .ok () ∧
    (mkInstance (id : ℚ → ℚ)
        (some [constVecField (1, 1) (constSample (some 1) (some 1) (some 1))]) 20).2.v3d_paths
      = some [] ∧
    (mkInstance (id : ℚ → ℚ)
        (some [constVecField (1, 1) (constSample (some 1) (some 1) (some 1))]) 20).2.constituent
      = [constVecField (1, 1) (constSample (some 1) (some 1) (some 1))].map
          (fun s => s.vel_matrix) :=
  C10_pop_mutates_caller (fun s hs => absurd hs (List.not_mem_nil s))

end PivPr
